import Mathlib

/-!
Verification of `src/compiler/transformers/decorators-to-static/component-decorator.ts`.

The TypeScript pass `componentDecoratorToStatic` is shallowly embedded below:
JS objects holding per-mode style lists become association lists
(`List (String × ...)`, preserving JS object key insertion order), JS
`undefined` becomes `Option`, mutation of the caller-owned collections becomes
explicit state passing, and a thrown JS `TypeError` becomes `Except.error`.
Helpers imported by the source file from outside the repository fragment
(`@utils`, `transform-utils`) are modelled from the specification and are
marked as such in their doc comments; everything else is translated line by
line from the source.
-/

set_option autoImplicit false

namespace ComponentDecorator

/-- Node identity in the host AST: two nodes are the same node iff they carry
the same id.  Used for diagnostic bindings and for the `d !== componentDecorator`
identity comparison in the source. -/
abbrev NodeId := Nat

/-- Modelled from the spec: the reserved default-mode key (the constant
`DEFAULT_STYLE_MODE` imported from `@utils`, which is not part of the
repository fragment). -/
def DEFAULT_STYLE_MODE : String := "$"

/-- A JS character is whitespace for `String.prototype.trim`. -/
def isJsWhitespace (c : Char) : Bool :=
  c == ' ' || c == '\t' || c == '\n' || c == '\r' || c == '\x0c' || c == '\x0b'

/-- JS `String.prototype.trim`: strip whitespace from both ends. -/
def jsTrim (s : String) : String :=
  String.mk (((s.toList.dropWhile isJsWhitespace).reverse.dropWhile isJsWhitespace).reverse)

/-- JS truthiness of a possibly-`undefined` string: `undefined` and `""` are falsy. -/
def strTruthy : Option String → Bool
  | none => false
  | some s => !s.isEmpty

/-- The value stored under one mode key of the `styleUrls` object in the
decorator options: the source type is `string | string[]`. -/
inductive StyleVal where
  | str (s : String)
  | strs (l : List String)
deriving DecidableEq, Repr

/-- The `styleUrls` decorator option: either a flat list of paths or a
per-mode map (`d.ModeStyles`), kept as an association list in JS object key
insertion order. -/
inductive StyleUrlsVal where
  | flat (l : List String)
  | perMode (m : List (String × StyleVal))
deriving DecidableEq, Repr

/-- `d.ComponentOptions`: the literal configuration object of the decorator.
`Option` marks fields that may be absent (`undefined`); a `tag` that is not a
string is modelled as `none` (the source checks `typeof tag !== 'string'`). -/
structure ComponentOptions where
  tag : Option String
  shadow : Bool
  «scoped» : Bool
  styleUrl : Option String
  styleUrls : Option StyleUrlsVal
  styles : Option String
  assetsDir : Option String
  assetsDirs : Option (List String)
deriving DecidableEq, Repr

/-- `d.CompilerModeStyles`: a JS object mapping mode name to a list of style
paths, as an association list in key insertion order. -/
abbrev ModeMap := List (String × List String)

/-- JS property read `m[k]` on a `ModeMap` object: the first (hence only)
entry with that key, else `undefined`. -/
def mapLookup : ModeMap → String → Option (List String)
  | [], _ => none
  | p :: rest, k => if p.1 == k then some p.2 else mapLookup rest k

/-- JS property read `m[k]` on a `d.ModeStyles` object. -/
def mapLookupSV : List (String × StyleVal) → String → Option StyleVal
  | [], _ => none
  | p :: rest, k => if p.1 == k then some p.2 else mapLookupSV rest k

/-- JS property write `m[k] = v`: if the key is present the entry is updated
in place (key order unchanged), otherwise the new entry is appended at the
end of the key order. -/
def mapInsert (m : ModeMap) (k : String) (v : List String) : ModeMap :=
  if m.any (fun p => p.1 == k) then
    m.map (fun p => if p.1 == k then (k, v) else p)
  else
    m ++ [(k, v)]

/-- Source lines 178-186, `normalizeStyle(style: string | string[] | undefined)`:
an array is returned as is, a truthy string is wrapped in a singleton list,
anything else (including `undefined` and `""`) yields the empty list. -/
def normalizeStyle : Option StyleVal → List String
  | some (.strs l) => l
  | some (.str s) => if s.isEmpty then [] else [s]
  | none => []

/-- Source lines 170-176, `normalizeStyleUrls`: normalize every mode's value
of a per-mode map independently (`Object.keys(...).forEach`, preserving key
order). -/
def normalizeStyleUrls (styleUrls : List (String × StyleVal)) : ModeMap :=
  styleUrls.map (fun p => (p.1, normalizeStyle (some p.2)))

/-- The pass's compiler configuration; the only field the source reads is
`_isTesting` (the path helpers under `config.sys.path` are modelled as pure
functions below). -/
structure Config where
  _isTesting : Bool
deriving DecidableEq, Repr

/-- Modelled from the spec: the host path capability `config.sys.path`
(`dirname` / `extname` / `basename` / `join`) used by source lines 163-168
(`useCss`) is not part of the repository fragment.  Per the spec the compiled
path is obtained by taking the directory, taking the base name without its
extension, and appending `.css`.  A leading-dot file name has no extension. -/
def useCss (config : Config) (stylePath : String) : String :=
  let l := stylePath.toList
  let base := (l.reverse.takeWhile (fun c => c != '/')).reverse
  let dir := l.take (l.length - base.length)
  let stem :=
    match base.reverse.dropWhile (fun c => c != '.') with
    | [] => base
    | [_] => base
    | _ :: rest => rest.reverse
  String.mk (dir ++ stem ++ ".css".toList)

/-- Source lines 155-161, `normalizeExtension`: rewrite every path of every
mode with `useCss`, independently. -/
def normalizeExtension (config : Config) (styleUrls : ModeMap) : ModeMap :=
  styleUrls.map (fun p => (p.1, p.2.map (useCss config)))

/-- One property of the object-literal argument of the decorator call, as
inspected by `findTagNode`: whether it is a `ts.PropertyAssignment`, the text
of its name, and the node id of its initializer. -/
structure PropEntry where
  isPropertyAssignment : Bool
  name : String
  initializer : NodeId
deriving DecidableEq, Repr

/-- One argument of the decorator's call expression. -/
structure CallArg where
  isObjectLiteral : Bool
  props : List PropEntry
deriving DecidableEq, Repr

/-- The `@Component` decorator node.  `callArgs` is `some` exactly when the
node is a decorator whose expression is a call expression (the guard of
`findTagNode`); `params` is the options object that
`getDeclarationParameters` (imported from `transform-utils`, modelled from
the spec: it decodes the annotation's first literal argument into the options
object, `none` when there is no parseable configuration object) extracts. -/
structure Decorator where
  nodeId : NodeId
  callArgs : Option (List CallArg)
  params : Option ComponentOptions
deriving DecidableEq, Repr

/-- Source lines 139-153, `findTagNode`: locate the initializer sub-node of
the named property of the decorator's object-literal argument, falling back
to the decorator node itself.  The source reads `node.expression.arguments[0]`
and feeds it to `ts.isObjectLiteralExpression`, which dereferences its
argument: a call with no arguments makes that a JS `TypeError`, modelled as
`Except.error`.  The `forEach` keeps overwriting `node`, so the last matching
property wins. -/
def findTagNode (propName : String) (node : Decorator) : Except String NodeId :=
  match node.callArgs with
  | none => .ok node.nodeId
  | some args =>
    match args.head? with
    | none => .error "TypeError: Cannot read property of undefined (reading kind)"
    | some arg =>
      if arg.isObjectLiteral then
        .ok (arg.props.foldl
          (fun acc p => if p.isPropertyAssignment && p.name == propName then p.initializer else acc)
          node.nodeId)
      else
        .ok node.nodeId

/-- One heritage clause of the class declaration: whether its token is
`ts.SyntaxKind.ExtendsKeyword`, and its node id. -/
structure HeritageClause where
  isExtends : Bool
  nodeId : NodeId
deriving DecidableEq, Repr

/-- One decorator attached to the class declaration, as seen from the class's
decorator list: its node id (identity) and the name its call expression's
callee prints as (used by `removeDecorators` for name matching). -/
structure DecoRef where
  nodeId : NodeId
  name : String
deriving DecidableEq, Repr

/-- `ts.ClassDeclaration` as read by this pass: optional heritage-clause list,
optional decorator list, optional class name (`cmpNode.name`, `none` for an
anonymous class, whose `.text` read is a `TypeError`). -/
structure ClassNode where
  heritageClauses : Option (List HeritageClause)
  decorators : Option (List DecoRef)
  name : Option String
deriving DecidableEq, Repr

/-- `symbol.valueDeclaration` of an exported symbol: its (possibly absent)
modifier list, as node ids. -/
structure ValueDecl where
  modifiers : Option (List NodeId)
deriving DecidableEq, Repr

/-- One exported symbol of the class's containing module, with the flags and
declaration back-references the single-export check reads. -/
structure ExportSymbol where
  name : String
  isInterface : Bool
  isTypeAlias : Bool
  valueDeclaration : Option ValueDecl
  declarations : List NodeId
deriving DecidableEq, Repr

/-- The symbol-resolution capability: `typeChecker.getExportsOfModule(
typeChecker.getSymbolAtLocation(cmpNode.getSourceFile()))`, modelled as the
list of exported symbols of the class's containing module. -/
structure TypeChecker where
  exportsOfModule : List ExportSymbol
deriving DecidableEq, Repr

/-- `d.Diagnostic` as observed by this pass: `buildError` (from `@utils`,
modelled from the spec: appends a fresh error diagnostic and hands it back
for mutation) fills `messageText`, and `augmentDiagnosticWithNode` (from
`@utils`, modelled from the spec: binds the diagnostic to the given source
node for position reporting) fills `nodeId`. -/
structure Diagnostic where
  messageText : String
  nodeId : Option NodeId
deriving DecidableEq, Repr

/-- Source lines 77-78: message of the no-inheritance diagnostic. -/
def extendsErrMsg : String :=
  "Classes decorated with @Component can not extend from a base class.\n    Stencil needs to be able to switch between different base classes in order to implement the different output targets such as: lazy and raw web components."

/-- Source line 85: message of the shadow/scoped mutual-exclusivity diagnostic. -/
def scopedShadowErrMsg : String :=
  "Components cannot be \"scoped\" and \"shadow\" at the same time, they are mutually exclusive configurations."

/-- Source lines 94-95: message of the multiple-decorators diagnostic. -/
def multiDecoratorErrMsg : String :=
  "Classes decorated with @Component can not be decorated with more decorators.\n    Stencil performs extensive static analysis on top of your components in order to generate the necessary metadata, runtime decorators at the components level make this task very hard."

/-- Source line 103: message of the missing-tag diagnostic. -/
def tagMissingErrMsg : String :=
  "tag missing in component decorator"

/-- Source line 111: message of the invalid-tag diagnostic. -/
def tagInvalidErrMsg (tagError : String) : String :=
  tagError ++ ". Please refer to https://html.spec.whatwg.org/multipage/custom-elements.html#valid-custom-element-name for more info."

/-- Source lines 123-125: message of the single-export diagnostic. -/
def singleExportErrMsg : String :=
  "To allow efficient bundling, modules using @Component() can only have a single export which is the component class itself.\n      Any other exports should be moved to a separate file.\n      For further information check out: https://stenciljs.com/docs/module-bundling"

/-- Modelled from the spec: `validateComponentTag` (imported from `@utils`,
not part of the repository fragment) checks the custom-element naming rules —
the tag must use only valid characters (lowercase letters, digits, dashes),
and must contain a dash; it returns an error message on violation and
`undefined` (here `none`) when the tag is valid. -/
def validateComponentTag (tag : String) : Option String :=
  if tag.toList.any (fun c => !(c.isLower || c.isDigit || c == '-')) then
    some "Tag can only contain lower case letters, digits and dashes"
  else if !(tag.toList.contains '-') then
    some "Tag must contain a dash (-) to work as a valid web component"
  else
    none

/-- Source lines 126-128: the node the single-export diagnostic is bound to.
`symbol.valueDeclaration ? symbol.valueDeclaration.modifiers[0] :
symbol.declarations[0]` — when `valueDeclaration` is present but its
`modifiers` is `undefined`, indexing it with `[0]` is a JS `TypeError`;
indexing an empty array yields `undefined`. -/
def exportDiagNode (s : ExportSymbol) : Except String (Option NodeId) :=
  match s.valueDeclaration with
  | some vd =>
    match vd.modifiers with
    | none => .error "TypeError: Cannot read property of undefined (reading 0)"
    | some ms => .ok ms.head?
  | none => .ok s.declarations.head?

/-- Total variant of `exportDiagNode` on symbols where no `TypeError` occurs. -/
def exportDiagNodeTotal (s : ExportSymbol) : Option NodeId :=
  match s.valueDeclaration with
  | some vd => (vd.modifiers.getD []).head?
  | none => s.declarations.head?

/-- `exportDiagNode` does not throw on this symbol. -/
def safeDiagNode (s : ExportSymbol) : Bool :=
  match s.valueDeclaration with
  | some vd => vd.modifiers.isSome
  | none => true

/-- Source line 119, `.filter(symbol => symbol.name !== cmpNode.name.text)`:
the predicate reads `cmpNode.name.text`, a JS `TypeError` when the class is
anonymous — but only when the predicate actually runs, i.e. when the filtered
list is non-empty. -/
def filterByClassName (syms : List ExportSymbol) (clsName : Option String) :
    Except String (List ExportSymbol) :=
  match syms with
  | [] => .ok []
  | s :: rest =>
    match clsName with
    | none => .error "TypeError: Cannot read property of undefined (reading text)"
    | some nm =>
      match filterByClassName rest (some nm) with
      | .error e => .error e
      | .ok r => .ok (if s.name == nm then r else s :: r)

/-- Source lines 121-131, the `nonTypeExports.forEach`: for each offending
export, `buildError` appends a diagnostic, its message is set, and it is
bound to the node `exportDiagNode` computes (whose `TypeError` aborts the
pass). -/
def appendExportDiags (diags : List Diagnostic) (l : List ExportSymbol) :
    Except String (List Diagnostic) :=
  match l with
  | [] => .ok diags
  | s :: rest =>
    match exportDiagNode s with
    | .error e => .error e
    | .ok n => appendExportDiags (diags ++ [⟨singleExportErrMsg, n⟩]) rest

/-- Source lines 73-137, `validateComponent`: runs the checks in source
order, appending a diagnostic and returning `false` at the first violation;
returns `true` when every check passes.  The returned list is the diagnostics
list after the call (the source mutates the shared list in place). -/
def validateComponent (config : Config) (diagnostics : List Diagnostic)
    (typeChecker : TypeChecker) (componentOptions : ComponentOptions)
    (cmpNode : ClassNode) (componentDecorator : Decorator) :
    Except String (List Diagnostic × Bool) :=
  match (cmpNode.heritageClauses.getD []).find? (fun c => c.isExtends) with
  | some extendNode =>
    .ok (diagnostics ++ [⟨extendsErrMsg, some extendNode.nodeId⟩], false)
  | none =>
    if componentOptions.shadow && componentOptions.«scoped» then
      match findTagNode "scoped" componentDecorator with
      | .error e => .error e
      | .ok n => .ok (diagnostics ++ [⟨scopedShadowErrMsg, some n⟩], false)
    else
      match (cmpNode.decorators.getD []).find?
          (fun dr => dr.nodeId != componentDecorator.nodeId) with
      | some otherDecorator =>
        .ok (diagnostics ++ [⟨multiDecoratorErrMsg, some otherDecorator.nodeId⟩], false)
      | none =>
        match componentOptions.tag with
        | none => .ok (diagnostics ++ [⟨tagMissingErrMsg, some componentDecorator.nodeId⟩], false)
        | some tag =>
          if (jsTrim tag).length == 0 then
            .ok (diagnostics ++ [⟨tagMissingErrMsg, some componentDecorator.nodeId⟩], false)
          else
            match validateComponentTag tag with
            | some tagError =>
              match findTagNode "tag" componentDecorator with
              | .error e => .error e
              | .ok n => .ok (diagnostics ++ [⟨tagInvalidErrMsg tagError, some n⟩], false)
            | none =>
              if config._isTesting then
                .ok (diagnostics, true)
              else
                let nonType1 := typeChecker.exportsOfModule.filter
                  (fun s => !(s.isInterface || s.isTypeAlias))
                match filterByClassName nonType1 cmpNode.name with
                | .error e => .error e
                | .ok nonTypeExports =>
                  match appendExportDiags diagnostics nonTypeExports with
                  | .error e => .error e
                  | .ok diags2 =>
                    if nonTypeExports.length > 0 then
                      .ok (diags2, false)
                    else
                      .ok (diags2, true)

/-- Modelled from the spec: `CLASS_DECORATORS_TO_REMOVE` (imported from
`remove-stencil-import`, not part of the repository fragment) is the fixed
set of class-level decorator names stripped by the pass, containing the
component annotation's own name. -/
def CLASS_DECORATORS_TO_REMOVE : List String := ["Component"]

/-- Modelled from the spec: `removeDecorators` (imported from
`transform-utils`, not part of the repository fragment) removes from the
class's decorator list every decorator whose name is in the given set. -/
def removeDecorators (node : ClassNode) (decoratorNames : List String) : ClassNode :=
  { node with
    decorators := node.decorators.map
      (fun l => l.filter (fun dr => !decoratorNames.contains dr.name)) }

/-- A literal value handed to `convertValueToLiteral` (from
`transform-utils`, modelled from the spec: it turns an in-memory value into
the equivalent AST literal node, embedded here as the value itself). -/
inductive LitVal where
  | str (s : String)
  | strList (l : List String)
  | modeMap (m : ModeMap)
deriving DecidableEq, Repr

/-- One synthesized static member, `createStaticGetter(name, literal)` (from
`transform-utils`, modelled from the spec: a static getter member returning
the literal). -/
structure ClassMember where
  name : String
  value : LitVal
deriving DecidableEq, Repr

/-- Source lines 29-47: the per-mode style map built by the pass.  The
default-mode list takes the flat `styleUrls` entries (or, for a per-mode map,
its default-mode entry) first, then the truthy `styleUrl`; for a per-mode
map every mode is normalized by `normalizeStyleUrls`; a non-empty
default-mode list is then written under `DEFAULT_STYLE_MODE`. -/
def computeStyleUrls (componentOptions : ComponentOptions) : ModeMap :=
  let fromStyleUrls :=
    match componentOptions.styleUrls with
    | none => []
    | some (.flat l) => normalizeStyle (some (.strs l))
    | some (.perMode m) => normalizeStyle (mapLookupSV m DEFAULT_STYLE_MODE)
  let defaultModeStyles :=
    fromStyleUrls ++
      (if strTruthy componentOptions.styleUrl then
        normalizeStyle (componentOptions.styleUrl.map .str)
      else [])
  let styleUrls : ModeMap :=
    match componentOptions.styleUrls with
    | some (.perMode m) => normalizeStyleUrls m
    | _ => []
  if defaultModeStyles.length > 0 then
    mapInsert styleUrls DEFAULT_STYLE_MODE defaultModeStyles
  else
    styleUrls

/-- The observable result of one invocation of the pass: the shared
diagnostics list, the class node, and the caller-owned `newMembers` list,
each as left after the call. -/
structure PassResult where
  diagnostics : List Diagnostic
  cmpNode : ClassNode
  newMembers : List ClassMember
deriving DecidableEq, Repr

/-- Source lines 20-69: the sequence of `newMembers.push(...)` calls run once
validation has passed, with `tag` the (string) tag of the options. -/
def synthMembers (config : Config) (componentOptions : ComponentOptions)
    (tag : String) (newMembers : List ClassMember) : List ClassMember :=
  let m1 := newMembers ++ [⟨"is", .str (jsTrim tag)⟩]
  let m2 :=
    if componentOptions.shadow then
      m1 ++ [⟨"encapsulation", .str "shadow"⟩]
    else if componentOptions.«scoped» then
      m1 ++ [⟨"encapsulation", .str "scoped"⟩]
    else m1
  let styleUrls := computeStyleUrls componentOptions
  let m3 :=
    if styleUrls.length > 0 then
      m2 ++ [⟨"originalStyleUrls", .modeMap styleUrls⟩,
             ⟨"styleUrls", .modeMap (normalizeExtension config styleUrls)⟩]
    else m2
  let assetsDirs :=
    (componentOptions.assetsDirs.getD []) ++
      (if strTruthy componentOptions.assetsDir then
        componentOptions.assetsDir.toList
      else [])
  let m4 :=
    if assetsDirs.length > 0 then
      m3 ++ [⟨"assetsDirs", .strList assetsDirs⟩]
    else m3
  let m5 :=
    match componentOptions.styles with
    | some s => if (jsTrim s).length > 0 then m4 ++ [⟨"styles", .str (jsTrim s)⟩] else m4
    | none => m4
  m5

/-- Source lines 8-71, `componentDecoratorToStatic`: strip the decorators in
`CLASS_DECORATORS_TO_REMOVE`, short-circuit when there is no options object,
validate, and on success push the synthesized static members in source
order (`synthMembers`).  `componentOptions.tag.trim()` on a missing tag would
be a JS `TypeError` (unreachable after successful validation). -/
def componentDecoratorToStatic (config : Config) (typeChecker : TypeChecker)
    (diagnostics : List Diagnostic) (cmpNode : ClassNode)
    (newMembers : List ClassMember) (componentDecorator : Decorator) :
    Except String PassResult :=
  let cmpNode1 := removeDecorators cmpNode CLASS_DECORATORS_TO_REMOVE
  match componentDecorator.params with
  | none => .ok ⟨diagnostics, cmpNode1, newMembers⟩
  | some componentOptions =>
    match validateComponent config diagnostics typeChecker componentOptions
        cmpNode1 componentDecorator with
    | .error e => .error e
    | .ok (diags1, valid) =>
      if valid then
        match componentOptions.tag with
        | none => .error "TypeError: Cannot read property of undefined (reading trim)"
        | some tag =>
          .ok ⟨diags1, cmpNode1, synthMembers config componentOptions tag newMembers⟩
      else
        .ok ⟨diags1, cmpNode1, newMembers⟩

/-! ### Association-list lemmas -/

theorem mapLookup_replaceKey (m : ModeMap) (k k' : String) (v : List String) (h : k' ≠ k) :
    mapLookup (m.map (fun p => if p.1 == k then (k, v) else p)) k'
      = mapLookup m k' := by
  induction m with
  | nil => rfl
  | cons p rest ih =>
    have hbk : (k == k') = false := by
      simp only [beq_eq_false_iff_ne, ne_eq]
      exact fun he => h he.symm
    by_cases hk : p.1 = k
    · have hkb : (p.1 == k) = true := by simp [hk]
      have hk' : (p.1 == k') = false := by rw [hk]; exact hbk
      simp only [List.map_cons, hkb, if_true, mapLookup, hbk, hk']
      exact ih
    · have hkb : (p.1 == k) = false := by simp [hk]
      simp only [List.map_cons, hkb, Bool.false_eq_true, if_false, mapLookup]
      cases hc : (p.1 == k') with
      | true => rfl
      | false => simpa using ih

theorem mapLookup_replaceKey_self (m : ModeMap) (k : String) (v : List String)
    (h : m.any (fun p => p.1 == k) = true) :
    mapLookup (m.map (fun p => if p.1 == k then (k, v) else p)) k = some v := by
  induction m with
  | nil => simp at h
  | cons p rest ih =>
    by_cases hk : p.1 = k
    · have hkb : (p.1 == k) = true := by simp [hk]
      simp [List.map_cons, hkb, mapLookup]
    · have hkb : (p.1 == k) = false := by simp [hk]
      have hrest : rest.any (fun p => p.1 == k) = true := by
        simp only [List.any_cons, hkb, Bool.false_or] at h
        exact h
      simp only [List.map_cons, hkb, Bool.false_eq_true, if_false, mapLookup]
      exact ih hrest

theorem keys_replaceKey (m : ModeMap) (k : String) (v : List String) :
    (m.map (fun p => if p.1 == k then (k, v) else p)).map Prod.fst = m.map Prod.fst := by
  induction m with
  | nil => rfl
  | cons p rest ih =>
    by_cases hk : p.1 = k
    · have hkb : (p.1 == k) = true := by simp [hk]
      simp only [List.map_cons, hkb, if_true, ih]
      simp [hk]
    · have hkb : (p.1 == k) = false := by simp [hk]
      simp only [List.map_cons, hkb, Bool.false_eq_true, if_false, ih]

theorem mapLookup_append_right (m : ModeMap) (k : String) (tail : ModeMap)
    (h : m.any (fun p => p.1 == k) = false) :
    mapLookup (m ++ tail) k = mapLookup tail k := by
  induction m with
  | nil => rfl
  | cons p rest ih =>
    have hkb : (p.1 == k) = false := by
      cases hb : (p.1 == k) with
      | false => rfl
      | true => simp [List.any_cons, hb] at h
    have hrest : rest.any (fun p => p.1 == k) = false := by
      simp only [List.any_cons, hkb, Bool.false_or] at h
      exact h
    simp only [List.cons_append, mapLookup, hkb, Bool.false_eq_true, if_false]
    exact ih hrest

theorem mapLookup_mapInsert_self (m : ModeMap) (k : String) (v : List String) :
    mapLookup (mapInsert m k v) k = some v := by
  unfold mapInsert
  split
  · next h => exact mapLookup_replaceKey_self m k v h
  · next h =>
    have hfalse : m.any (fun p => p.1 == k) = false := by
      cases hb : m.any (fun p => p.1 == k) with
      | false => rfl
      | true => exact absurd hb h
    rw [mapLookup_append_right m k [(k, v)] hfalse]
    simp [mapLookup]

theorem mapLookup_append_singleton_ne (m : ModeMap) (k k' : String) (v : List String)
    (h : k' ≠ k) :
    mapLookup (m ++ [(k, v)]) k' = mapLookup m k' := by
  induction m with
  | nil =>
    have hbk : (k == k') = false := by
      simp only [beq_eq_false_iff_ne, ne_eq]
      exact fun he => h he.symm
    simp [mapLookup, hbk]
  | cons p rest ih =>
    simp only [List.cons_append, mapLookup]
    cases hc : (p.1 == k') with
    | true => rfl
    | false => simpa using ih

theorem mapLookup_mapInsert_ne (m : ModeMap) (k k' : String) (v : List String)
    (h : k' ≠ k) :
    mapLookup (mapInsert m k v) k' = mapLookup m k' := by
  unfold mapInsert
  split
  · exact mapLookup_replaceKey m k k' v h
  · exact mapLookup_append_singleton_ne m k k' v h

theorem keys_mapInsert_of_mem (m : ModeMap) (k : String) (v : List String)
    (h : m.any (fun p => p.1 == k) = true) :
    (mapInsert m k v).map Prod.fst = m.map Prod.fst := by
  unfold mapInsert
  rw [if_pos h]
  exact keys_replaceKey m k v

theorem mapLookup_normalizeStyleUrls (m : List (String × StyleVal)) (k : String) :
    mapLookup (normalizeStyleUrls m) k
      = (mapLookupSV m k).map (fun v => normalizeStyle (some v)) := by
  induction m with
  | nil => rfl
  | cons p rest ih =>
    simp only [normalizeStyleUrls, List.map_cons, mapLookup, mapLookupSV]
    cases hc : (p.1 == k) with
    | true => rfl
    | false => simpa [normalizeStyleUrls] using ih

theorem mapLookup_normalizeExtension (config : Config) (m : ModeMap) (k : String) :
    mapLookup (normalizeExtension config m) k
      = (mapLookup m k).map (fun l => l.map (useCss config)) := by
  induction m with
  | nil => rfl
  | cons p rest ih =>
    simp only [normalizeExtension, List.map_cons, mapLookup]
    cases hc : (p.1 == k) with
    | true => rfl
    | false => simpa [normalizeExtension] using ih

theorem keys_normalizeStyleUrls (m : List (String × StyleVal)) :
    (normalizeStyleUrls m).map Prod.fst = m.map Prod.fst := by
  induction m with
  | nil => rfl
  | cons p rest ih =>
    simp only [normalizeStyleUrls, List.map_cons] at ih ⊢
    rw [ih]

/-! ### Validator helper lemmas -/

theorem removeDecorators_heritage (node : ClassNode) (names : List String) :
    (removeDecorators node names).heritageClauses = node.heritageClauses := rfl

theorem removeDecorators_name (node : ClassNode) (names : List String) :
    (removeDecorators node names).name = node.name := rfl

theorem filterByClassName_some (syms : List ExportSymbol) (nm : String) :
    filterByClassName syms (some nm) = .ok (syms.filter (fun s => s.name != nm)) := by
  induction syms with
  | nil => rfl
  | cons s rest ih =>
    simp only [filterByClassName, ih, List.filter]
    cases hc : (s.name == nm) with
    | true => simp [bne, hc]
    | false => simp [bne, hc]

theorem exportDiagNode_safe (s : ExportSymbol) (h : safeDiagNode s = true) :
    exportDiagNode s = .ok (exportDiagNodeTotal s) := by
  cases hvd : s.valueDeclaration with
  | none => simp [exportDiagNode, exportDiagNodeTotal, hvd]
  | some vd =>
    cases hm : vd.modifiers with
    | none => simp [safeDiagNode, hvd, hm] at h
    | some ms => simp [exportDiagNode, exportDiagNodeTotal, hvd, hm]

theorem appendExportDiags_safe (l : List ExportSymbol) (diags : List Diagnostic)
    (h : ∀ s ∈ l, safeDiagNode s = true) :
    appendExportDiags diags l
      = .ok (diags ++ l.map (fun s => ⟨singleExportErrMsg, exportDiagNodeTotal s⟩)) := by
  induction l generalizing diags with
  | nil => simp [appendExportDiags]
  | cons s rest ih =>
    have hs : safeDiagNode s = true := h s (List.mem_cons_self s rest)
    have hrest : ∀ x ∈ rest, safeDiagNode x = true :=
      fun x hx => h x (List.mem_cons_of_mem s hx)
    simp only [appendExportDiags, exportDiagNode_safe s hs, ih _ hrest, List.map_cons]
    simp

/-- A successful validation implies the tag is a string (the source checks
`typeof tag !== 'string'` before returning `true`). -/
theorem validate_ok_true_tag (config : Config) (diagnostics : List Diagnostic)
    (typeChecker : TypeChecker) (componentOptions : ComponentOptions)
    (cmpNode : ClassNode) (componentDecorator : Decorator) (d1 : List Diagnostic)
    (h : validateComponent config diagnostics typeChecker componentOptions
      cmpNode componentDecorator = .ok (d1, true)) :
    ∃ t, componentOptions.tag = some t := by
  unfold validateComponent at h
  split at h
  · simp at h
  · split at h
    · split at h <;> simp_all
    · split at h
      · simp at h
      · split at h
        · simp at h
        · next tag heq =>
          exact ⟨tag, heq⟩

/-- The `forEach` of `findTagNode` leaves the accumulator unchanged when no
property matches. -/
theorem findTagNode_foldl_no_match (props : List PropEntry) (propName : String) (a : NodeId)
    (h : ∀ p ∈ props, ¬(p.isPropertyAssignment = true ∧ p.name = propName)) :
    props.foldl
      (fun acc p => if p.isPropertyAssignment && p.name == propName then p.initializer else acc)
      a = a := by
  induction props generalizing a with
  | nil => rfl
  | cons p rest ih =>
    have hp : (p.isPropertyAssignment && p.name == propName) = false := by
      cases hb : (p.isPropertyAssignment && p.name == propName) with
      | false => rfl
      | true =>
        simp only [Bool.and_eq_true, beq_iff_eq] at hb
        exact absurd hb (h p (List.mem_cons_self p rest))
    simp only [List.foldl_cons, hp, Bool.false_eq_true, if_false]
    exact ih a (fun x hx => h x (List.mem_cons_of_mem p hx))

/-- The `forEach` of `findTagNode` produces either the original accumulator or
the initializer of some matching property. -/
theorem findTagNode_foldl_mem (props : List PropEntry) (propName : String) (a : NodeId) :
    props.foldl
      (fun acc p => if p.isPropertyAssignment && p.name == propName then p.initializer else acc)
      a = a
    ∨ ∃ p ∈ props, p.isPropertyAssignment = true ∧ p.name = propName ∧
        props.foldl
          (fun acc p => if p.isPropertyAssignment && p.name == propName then p.initializer else acc)
          a = p.initializer := by
  induction props generalizing a with
  | nil => exact Or.inl rfl
  | cons p rest ih =>
    simp only [List.foldl_cons]
    cases hb : (p.isPropertyAssignment && p.name == propName) with
    | true =>
      simp only [if_true]
      simp only [Bool.and_eq_true, beq_iff_eq] at hb
      rcases ih p.initializer with hsame | ⟨q, hq, hqa, hqn, hqv⟩
      · exact Or.inr ⟨p, List.mem_cons_self p rest, hb.1, hb.2, hsame⟩
      · exact Or.inr ⟨q, List.mem_cons_of_mem p hq, hqa, hqn, hqv⟩
    | false =>
      simp only [Bool.false_eq_true, if_false]
      rcases ih a with hsame | ⟨q, hq, hqa, hqn, hqv⟩
      · exact Or.inl hsame
      · exact Or.inr ⟨q, List.mem_cons_of_mem p hq, hqa, hqn, hqv⟩

/-! ### Claim C7 -/

/-- Claim C7: for every class declaration that has an extends heritage clause,
validation returns false with a diagnostic bound to that heritage clause node,
regardless of the values of all other configuration fields (the extends check
is the first check, so no other field is even read). -/
theorem extends_clause_always_fails_validation
    (config : Config) (diagnostics : List Diagnostic) (typeChecker : TypeChecker)
    (componentOptions : ComponentOptions) (cmpNode : ClassNode) (componentDecorator : Decorator)
    (h : (cmpNode.heritageClauses.getD []).any (fun c => c.isExtends) = true) :
    ∃ hc ∈ cmpNode.heritageClauses.getD [], hc.isExtends = true ∧
      validateComponent config diagnostics typeChecker componentOptions cmpNode
          componentDecorator
        = .ok (diagnostics ++ [⟨extendsErrMsg, some hc.nodeId⟩], false) := by
  cases hfind : (cmpNode.heritageClauses.getD []).find? (fun c => c.isExtends) with
  | none =>
    obtain ⟨x, hx, hpx⟩ := List.any_eq_true.mp h
    have hnot := List.find?_eq_none.mp hfind x hx
    rw [hpx] at hnot
    exact absurd rfl hnot
  | some hc =>
    have hmem := List.mem_of_find?_eq_some hfind
    have hpred := List.find?_some hfind
    refine ⟨hc, hmem, hpred, ?_⟩
    unfold validateComponent
    rw [hfind]

/-- Witness for C7 at a concrete class declaration carrying an extends clause. -/
theorem extends_clause_always_fails_validation_witness :
    ∃ hc ∈ (ClassNode.mk (some [⟨true, 3⟩]) none (some "MyComponent")).heritageClauses.getD [],
      hc.isExtends = true ∧
      validateComponent ⟨true⟩ [] ⟨[]⟩
          ⟨some "foo-bar", false, false, none, none, none, none, none⟩
          ⟨some [⟨true, 3⟩], none, some "MyComponent"⟩
          ⟨5, none, none⟩
        = .ok ([] ++ [⟨extendsErrMsg, some hc.nodeId⟩], false) :=
  extends_clause_always_fails_validation ⟨true⟩ [] ⟨[]⟩
    ⟨some "foo-bar", false, false, none, none, none, none, none⟩
    ⟨some [⟨true, 3⟩], none, some "MyComponent"⟩
    ⟨5, none, none⟩ (by decide)

/-! ### Claim C5 -/

/-- Claim C5 (refuted — the code can throw): in non-test mode, when the
module has an offending exported symbol whose `valueDeclaration` has no
modifier list, the single-export diagnostic construction at source line 127
reads `symbol.valueDeclaration.modifiers[0]` on `undefined` and the pass
aborts with a thrown `TypeError` instead of reporting only via diagnostics. -/
theorem pass_throws_on_modifierless_export :
    componentDecoratorToStatic ⟨false⟩ ⟨[⟨"Helper", false, false, some ⟨none⟩, [7]⟩]⟩ []
      ⟨none, some [⟨5, "Component"⟩], some "MyComponent"⟩ []
      ⟨5, some [⟨true, [⟨true, "tag", 11⟩]⟩],
        some ⟨some "foo-bar", false, false, none, none, none, none, none⟩⟩
      = .error "TypeError: Cannot read property of undefined (reading 0)" := rfl

/-! ### Claim C9 -/

/-- Counterexample to C9: at a configuration that fails validation (`shadow`
and `scoped` both true) the original `@Component` annotation is nevertheless
removed from the class's decorator list — the removal is not a final step
performed only after validation passes. -/
theorem decorator_removed_despite_failed_validation :
    (componentDecoratorToStatic ⟨true⟩ ⟨[]⟩ []
        ⟨none, some [⟨5, "Component"⟩], some "MyComponent"⟩ []
        ⟨5, some [⟨true, [⟨true, "scoped", 13⟩]⟩],
          some ⟨some "foo-bar", true, true, none, none, none, none, none⟩⟩
      = .ok ⟨[⟨scopedShadowErrMsg, some 13⟩],
             ⟨none, some [], some "MyComponent"⟩, []⟩)
    ∧ (some ([] : List DecoRef) ≠ some [DecoRef.mk 5 "Component"]) :=
  ⟨rfl, by decide⟩

/-- Claim C9 (amended): the annotation-stripping `removeDecorators` call is
the first step of the pass and happens on every invocation — whenever the
pass returns, the resulting class node is the input class node with the
decorators named in `CLASS_DECORATORS_TO_REMOVE` (the component annotation
among them) removed, regardless of whether validation passed, failed, or the
options object was absent. -/
theorem annotation_removed_first_unconditionally
    (config : Config) (typeChecker : TypeChecker) (diagnostics : List Diagnostic)
    (cmpNode : ClassNode) (newMembers : List ClassMember) (componentDecorator : Decorator)
    (r : PassResult)
    (h : componentDecoratorToStatic config typeChecker diagnostics cmpNode newMembers
      componentDecorator = .ok r) :
    r.cmpNode = removeDecorators cmpNode CLASS_DECORATORS_TO_REMOVE := by
  simp only [componentDecoratorToStatic] at h
  cases hp : componentDecorator.params with
  | none =>
    simp only [hp] at h
    injection h with h
    rw [← h]
  | some co =>
    simp only [hp] at h
    cases hv : validateComponent config diagnostics typeChecker co
        (removeDecorators cmpNode CLASS_DECORATORS_TO_REMOVE) componentDecorator with
    | error e => rw [hv] at h; exact Except.noConfusion h
    | ok dv =>
      obtain ⟨d1, valid⟩ := dv
      simp only [hv] at h
      cases valid with
      | false =>
        simp only [Bool.false_eq_true, if_false] at h
        injection h with h
        rw [← h]
      | true =>
        simp only [if_true] at h
        cases ht : co.tag with
        | none => rw [ht] at h; exact Except.noConfusion h
        | some tag =>
          simp only [ht] at h
          injection h with h
          rw [← h]

/-- Witness for the amended C9 at a concrete failing-validation invocation. -/
theorem annotation_removed_first_unconditionally_witness :
    (PassResult.mk [⟨scopedShadowErrMsg, some 13⟩]
        ⟨none, some [], some "MyComponent"⟩ []).cmpNode
      = removeDecorators ⟨none, some [⟨5, "Component"⟩], some "MyComponent"⟩
          CLASS_DECORATORS_TO_REMOVE :=
  annotation_removed_first_unconditionally ⟨true⟩ ⟨[]⟩ []
    ⟨none, some [⟨5, "Component"⟩], some "MyComponent"⟩ []
    ⟨5, some [⟨true, [⟨true, "scoped", 13⟩]⟩],
      some ⟨some "foo-bar", true, true, none, none, none, none, none⟩⟩
    ⟨[⟨scopedShadowErrMsg, some 13⟩], ⟨none, some [], some "MyComponent"⟩, []⟩
    rfl

/-! ### Claim C6 -/

/-- Claim C6: for every configuration with shadow and scoped both true (on a
class that reaches the shadow/scoped check, i.e. without an extends clause),
the pass appends exactly one diagnostic and appends no synthesized members;
the diagnostic is bound to the node `findTagNode "scoped"` locates, which is
the initializer of a property assignment named `scoped` of the decorator's
object-literal argument when one exists, and the whole decorator node
otherwise. -/
theorem shadow_scoped_one_diagnostic_no_members :
    (∀ (config : Config) (typeChecker : TypeChecker) (diagnostics : List Diagnostic)
        (cmpNode : ClassNode) (newMembers : List ClassMember) (componentDecorator : Decorator)
        (co : ComponentOptions) (n : NodeId),
      componentDecorator.params = some co →
      co.shadow = true →
      co.«scoped» = true →
      (cmpNode.heritageClauses.getD []).find? (fun c => c.isExtends) = none →
      findTagNode "scoped" componentDecorator = .ok n →
      componentDecoratorToStatic config typeChecker diagnostics cmpNode newMembers
          componentDecorator
        = .ok ⟨diagnostics ++ [⟨scopedShadowErrMsg, some n⟩],
               removeDecorators cmpNode CLASS_DECORATORS_TO_REMOVE, newMembers⟩)
  ∧ (∀ (componentDecorator : Decorator) (arg : CallArg) (rest : List CallArg),
      componentDecorator.callArgs = some (arg :: rest) →
      arg.isObjectLiteral = true →
      (∀ p ∈ arg.props, ¬(p.isPropertyAssignment = true ∧ p.name = "scoped")) →
      findTagNode "scoped" componentDecorator = .ok componentDecorator.nodeId)
  ∧ (∀ (componentDecorator : Decorator) (arg : CallArg) (rest : List CallArg) (n : NodeId),
      componentDecorator.callArgs = some (arg :: rest) →
      arg.isObjectLiteral = true →
      findTagNode "scoped" componentDecorator = .ok n →
      n = componentDecorator.nodeId ∨
        ∃ p ∈ arg.props, p.isPropertyAssignment = true ∧ p.name = "scoped" ∧
          n = p.initializer) := by
  refine ⟨?_, ?_, ?_⟩
  · intro config typeChecker diagnostics cmpNode newMembers componentDecorator co n
      hp hsh hsc hher hfind
    have hher1 : (((removeDecorators cmpNode CLASS_DECORATORS_TO_REMOVE)
        |>.heritageClauses).getD []).find? (fun c => c.isExtends) = none := by
      rw [removeDecorators_heritage]
      exact hher
    have hval : validateComponent config diagnostics typeChecker co
        (removeDecorators cmpNode CLASS_DECORATORS_TO_REMOVE) componentDecorator
        = .ok (diagnostics ++ [⟨scopedShadowErrMsg, some n⟩], false) := by
      unfold validateComponent
      rw [hher1]
      rw [hsh, hsc]
      simp only [Bool.and_self, if_true]
      rw [hfind]
    simp only [componentDecoratorToStatic, hp, hval, Bool.false_eq_true, if_false]
  · intro componentDecorator arg rest hargs hobj hnone
    unfold findTagNode
    rw [hargs]
    simp only [List.head?_cons, hobj, if_true]
    rw [findTagNode_foldl_no_match arg.props "scoped" componentDecorator.nodeId hnone]
  · intro componentDecorator arg rest n hargs hobj hfind
    unfold findTagNode at hfind
    rw [hargs] at hfind
    simp only [List.head?_cons, hobj, if_true] at hfind
    injection hfind with hfind
    rcases findTagNode_foldl_mem arg.props "scoped" componentDecorator.nodeId with
      hsame | ⟨p, hpmem, hpa, hpn, hpv⟩
    · exact Or.inl (hfind ▸ hsame.symm ▸ rfl)
    · exact Or.inr ⟨p, hpmem, hpa, hpn, hfind ▸ hpv.symm ▸ rfl⟩

/-- Witness for C6 at a concrete shadow+scoped configuration whose decorator
argument carries a locatable `scoped` property. -/
theorem shadow_scoped_one_diagnostic_no_members_witness :
    componentDecoratorToStatic ⟨true⟩ ⟨[]⟩ []
        ⟨none, some [⟨5, "Component"⟩], some "MyComponent"⟩ []
        ⟨5, some [⟨true, [⟨true, "scoped", 13⟩]⟩],
          some ⟨some "foo-bar", true, true, none, none, none, none, none⟩⟩
      = .ok ⟨[] ++ [⟨scopedShadowErrMsg, some 13⟩],
             removeDecorators ⟨none, some [⟨5, "Component"⟩], some "MyComponent"⟩
               CLASS_DECORATORS_TO_REMOVE, []⟩ :=
  shadow_scoped_one_diagnostic_no_members.1 ⟨true⟩ ⟨[]⟩ []
    ⟨none, some [⟨5, "Component"⟩], some "MyComponent"⟩ []
    ⟨5, some [⟨true, [⟨true, "scoped", 13⟩]⟩],
      some ⟨some "foo-bar", true, true, none, none, none, none, none⟩⟩
    ⟨some "foo-bar", true, true, none, none, none, none, none⟩ 13
    rfl rfl rfl rfl rfl

/-! ### Claim C4 -/

/-- Claim C4: once the earlier checks pass, in non-test mode the single-export
check appends one diagnostic per exported symbol that is neither type-only
(interface or type alias) nor named like the component class — all offending
exports are diagnosed, each bound to the node `exportDiagNodeTotal` selects —
and validation returns false iff at least one such export exists
(`offenders.isEmpty` is the returned flag); in test mode the check is skipped
entirely: validation returns true and appends nothing, regardless of the
module's exports.  The no-crash hypothesis `safeDiagNode` excludes the
symbols on which the diagnostic construction would throw (see C5). -/
theorem single_export_check_diagnoses_all
    (config : Config) (diags : List Diagnostic) (typeChecker : TypeChecker)
    (co : ComponentOptions) (cmpNode : ClassNode) (componentDecorator : Decorator)
    (nm t : String)
    (hher : (cmpNode.heritageClauses.getD []).find? (fun c => c.isExtends) = none)
    (hss : (co.shadow && co.«scoped») = false)
    (hdec : (cmpNode.decorators.getD []).find?
      (fun dr => dr.nodeId != componentDecorator.nodeId) = none)
    (htag : co.tag = some t)
    (htrim : ((jsTrim t).length == 0) = false)
    (htagok : validateComponentTag t = none)
    (hname : cmpNode.name = some nm)
    (hsafe : ∀ s ∈ typeChecker.exportsOfModule, safeDiagNode s = true) :
    (config._isTesting = false →
      validateComponent config diags typeChecker co cmpNode componentDecorator
        = .ok (diags ++
            ((typeChecker.exportsOfModule.filter
                (fun s => !(s.isInterface || s.isTypeAlias))).filter
              (fun s => s.name != nm)).map
                (fun s => ⟨singleExportErrMsg, exportDiagNodeTotal s⟩),
            ((typeChecker.exportsOfModule.filter
                (fun s => !(s.isInterface || s.isTypeAlias))).filter
              (fun s => s.name != nm)).isEmpty))
    ∧ (config._isTesting = true →
      validateComponent config diags typeChecker co cmpNode componentDecorator
        = .ok (diags, true)) := by
  constructor
  · intro htest
    have hsafe2 : ∀ s ∈ (typeChecker.exportsOfModule.filter
        (fun s => !(s.isInterface || s.isTypeAlias))).filter (fun s => s.name != nm),
        safeDiagNode s = true := by
      intro s hs
      exact hsafe s (List.mem_of_mem_filter (List.mem_of_mem_filter hs))
    unfold validateComponent
    simp only [hher, hss, hdec, htag, htrim, htagok, htest, hname,
      Bool.false_eq_true, if_false, filterByClassName_some,
      appendExportDiags_safe _ _ hsafe2]
    cases hoff : (typeChecker.exportsOfModule.filter
        (fun s => !(s.isInterface || s.isTypeAlias))).filter (fun s => s.name != nm) with
    | nil => simp [hoff]
    | cons a rest => simp [hoff]
  · intro htest
    unfold validateComponent
    simp only [hher, hss, hdec, htag, htrim, htagok, htest,
      Bool.false_eq_true, if_false, if_true]

/-- Witness for C4 at a concrete module exporting the class, one offending
function `Helper` (export modifier node 9) and one type-only interface. -/
theorem single_export_check_diagnoses_all_witness :
    validateComponent ⟨false⟩ []
      ⟨([⟨"Helper", false, false, some ⟨some [9]⟩, [7]⟩,
         ⟨"MyComponent", false, false, some ⟨some [4]⟩, [3]⟩,
         ⟨"SomeInterface", true, false, none, [8]⟩] : List ExportSymbol)⟩
      ⟨some "foo-bar", false, false, none, none, none, none, none⟩
      ⟨none, some [], some "MyComponent"⟩
      ⟨5, some [⟨true, [⟨true, "tag", 11⟩]⟩],
        some ⟨some "foo-bar", false, false, none, none, none, none, none⟩⟩
      = .ok ([] ++
          ((([⟨"Helper", false, false, some ⟨some [9]⟩, [7]⟩,
              ⟨"MyComponent", false, false, some ⟨some [4]⟩, [3]⟩,
              ⟨"SomeInterface", true, false, none, [8]⟩] : List ExportSymbol).filter
              (fun s => !(s.isInterface || s.isTypeAlias))).filter
            (fun s => s.name != "MyComponent")).map
              (fun s => ⟨singleExportErrMsg, exportDiagNodeTotal s⟩),
          ((([⟨"Helper", false, false, some ⟨some [9]⟩, [7]⟩,
              ⟨"MyComponent", false, false, some ⟨some [4]⟩, [3]⟩,
              ⟨"SomeInterface", true, false, none, [8]⟩] : List ExportSymbol).filter
              (fun s => !(s.isInterface || s.isTypeAlias))).filter
            (fun s => s.name != "MyComponent")).isEmpty) :=
  (single_export_check_diagnoses_all ⟨false⟩ []
    ⟨([⟨"Helper", false, false, some ⟨some [9]⟩, [7]⟩,
       ⟨"MyComponent", false, false, some ⟨some [4]⟩, [3]⟩,
       ⟨"SomeInterface", true, false, none, [8]⟩] : List ExportSymbol)⟩
    ⟨some "foo-bar", false, false, none, none, none, none, none⟩
    ⟨none, some [], some "MyComponent"⟩
    ⟨5, some [⟨true, [⟨true, "tag", 11⟩]⟩],
      some ⟨some "foo-bar", false, false, none, none, none, none, none⟩⟩
    "MyComponent" "foo-bar" rfl rfl rfl rfl (by decide) rfl rfl
    (by decide)).1 rfl

/-! ### Pass-structure helper lemmas -/

/-- Flattened form of the member-push sequence: the synthesized members are
appended after the caller's list as six independent blocks in source order. -/
theorem synthMembers_eq (config : Config) (co : ComponentOptions)
    (tag : String) (newMembers : List ClassMember) :
    synthMembers config co tag newMembers
      = newMembers
        ++ [⟨"is", .str (jsTrim tag)⟩]
        ++ (if co.shadow then [⟨"encapsulation", .str "shadow"⟩]
            else if co.«scoped» then [⟨"encapsulation", .str "scoped"⟩] else [])
        ++ (if (computeStyleUrls co).length > 0 then
              [⟨"originalStyleUrls", .modeMap (computeStyleUrls co)⟩,
               ⟨"styleUrls", .modeMap (normalizeExtension config (computeStyleUrls co))⟩]
            else [])
        ++ (if ((co.assetsDirs.getD [])
              ++ (if strTruthy co.assetsDir then co.assetsDir.toList else [])).length > 0 then
              [⟨"assetsDirs", .strList ((co.assetsDirs.getD [])
                ++ (if strTruthy co.assetsDir then co.assetsDir.toList else []))⟩]
            else [])
        ++ (match co.styles with
            | some s => if (jsTrim s).length > 0 then [⟨"styles", .str (jsTrim s)⟩] else []
            | none => []) := by
  rcases hst : co.styles with _ | s <;>
  · simp only [synthMembers, hst]
    generalize (computeStyleUrls co) = SU
    generalize ((co.assetsDirs.getD [])
      ++ (if strTruthy co.assetsDir then co.assetsDir.toList else [])) = A
    split_ifs <;> simp [List.append_assoc]

/-- The pass on a valid configuration: validation diagnostics, stripped class
node, and the synthesized members appended to the caller's list. -/
theorem pass_ok_of_valid (config : Config) (typeChecker : TypeChecker)
    (diags : List Diagnostic) (cmpNode : ClassNode) (newMembers : List ClassMember)
    (componentDecorator : Decorator) (co : ComponentOptions) (d1 : List Diagnostic) (t : String)
    (hp : componentDecorator.params = some co)
    (hval : validateComponent config diags typeChecker co
      (removeDecorators cmpNode CLASS_DECORATORS_TO_REMOVE) componentDecorator
      = .ok (d1, true))
    (ht : co.tag = some t) :
    componentDecoratorToStatic config typeChecker diags cmpNode newMembers componentDecorator
      = .ok ⟨d1, removeDecorators cmpNode CLASS_DECORATORS_TO_REMOVE,
             synthMembers config co t newMembers⟩ := by
  simp only [componentDecoratorToStatic, hp, hval, if_true, ht]

/-- The pass on an invalid configuration: only the diagnostics change. -/
theorem pass_ok_of_invalid (config : Config) (typeChecker : TypeChecker)
    (diags : List Diagnostic) (cmpNode : ClassNode) (newMembers : List ClassMember)
    (componentDecorator : Decorator) (co : ComponentOptions) (d1 : List Diagnostic)
    (hp : componentDecorator.params = some co)
    (hval : validateComponent config diags typeChecker co
      (removeDecorators cmpNode CLASS_DECORATORS_TO_REMOVE) componentDecorator
      = .ok (d1, false)) :
    componentDecoratorToStatic config typeChecker diags cmpNode newMembers componentDecorator
      = .ok ⟨d1, removeDecorators cmpNode CLASS_DECORATORS_TO_REMOVE, newMembers⟩ := by
  simp only [componentDecoratorToStatic, hp, hval, Bool.false_eq_true, if_false]

/-! ### Claim C1 -/

/-- Counterexample to C1: with `styleUrl: "a.scss"` and flat
`styleUrls: ["b.scss"]`, the emitted default-mode list is
`["b.scss", "a.scss"]` — the flat `styleUrls` entries come first and the
`styleUrl` entry last, not the claimed `styleUrl`-first order. -/
theorem styleUrl_does_not_precede_flat_styleUrls :
    (componentDecoratorToStatic ⟨true⟩ ⟨[]⟩ []
        ⟨none, some [⟨5, "Component"⟩], some "MyComponent"⟩ []
        ⟨5, some [⟨true, [⟨true, "tag", 11⟩]⟩],
          some ⟨some "foo-bar", false, false, some "a.scss",
            some (.flat ["b.scss"]), none, none, none⟩⟩
      = .ok ⟨[], ⟨none, some [], some "MyComponent"⟩,
          [⟨"is", .str "foo-bar"⟩,
           ⟨"originalStyleUrls", .modeMap [(DEFAULT_STYLE_MODE, ["b.scss", "a.scss"])]⟩,
           ⟨"styleUrls", .modeMap [(DEFAULT_STYLE_MODE, ["b.css", "a.css"])]⟩]⟩)
    ∧ (["b.scss", "a.scss"] ≠ ["a.scss", "b.scss"]) :=
  ⟨rfl, by decide⟩

/-- Claim C1 (amended): when `styleUrls` is a flat list and a truthy
`styleUrl` is also given, both are concatenated into the single default-mode
list with the flat `styleUrls` entries preceding the `styleUrl` entry, for
every such configuration that passes validation; the pass then emits that
list as the sole default-mode entry of the style maps. -/
theorem flat_styleUrls_precede_styleUrl
    (config : Config) (typeChecker : TypeChecker) (diags : List Diagnostic)
    (cmpNode : ClassNode) (newMembers : List ClassMember) (componentDecorator : Decorator)
    (co : ComponentOptions) (l : List String) (s : String) (d1 : List Diagnostic)
    (hp : componentDecorator.params = some co)
    (hval : validateComponent config diags typeChecker co
      (removeDecorators cmpNode CLASS_DECORATORS_TO_REMOVE) componentDecorator
      = .ok (d1, true))
    (hurls : co.styleUrls = some (.flat l))
    (hurl : co.styleUrl = some s) (hs : s.isEmpty = false) :
    computeStyleUrls co = [(DEFAULT_STYLE_MODE, l ++ [s])] ∧
    ∃ r, componentDecoratorToStatic config typeChecker diags cmpNode newMembers
        componentDecorator = .ok r ∧
      ClassMember.mk "originalStyleUrls" (.modeMap [(DEFAULT_STYLE_MODE, l ++ [s])])
        ∈ r.newMembers := by
  have hsu : computeStyleUrls co = [(DEFAULT_STYLE_MODE, l ++ [s])] := by
    simp [computeStyleUrls, hurls, hurl, strTruthy, hs, normalizeStyle, mapInsert]
  refine ⟨hsu, ?_⟩
  obtain ⟨t, ht⟩ := validate_ok_true_tag config diags typeChecker co
    (removeDecorators cmpNode CLASS_DECORATORS_TO_REMOVE) componentDecorator d1 hval
  refine ⟨⟨d1, removeDecorators cmpNode CLASS_DECORATORS_TO_REMOVE,
      synthMembers config co t newMembers⟩,
    pass_ok_of_valid config typeChecker diags cmpNode newMembers componentDecorator
      co d1 t hp hval ht, ?_⟩
  rw [synthMembers_eq, hsu]
  simp [List.mem_append]

/-- Witness for the amended C1 at a concrete flat-list configuration. -/
theorem flat_styleUrls_precede_styleUrl_witness :
    computeStyleUrls ⟨some "foo-bar", false, false, some "a.scss",
        some (.flat ["b.scss"]), none, none, none⟩
      = [(DEFAULT_STYLE_MODE, ["b.scss"] ++ ["a.scss"])] ∧
    ∃ r, componentDecoratorToStatic ⟨true⟩ ⟨[]⟩ []
        ⟨none, some [⟨5, "Component"⟩], some "MyComponent"⟩ []
        ⟨5, some [⟨true, [⟨true, "tag", 11⟩]⟩],
          some ⟨some "foo-bar", false, false, some "a.scss",
            some (.flat ["b.scss"]), none, none, none⟩⟩ = .ok r ∧
      ClassMember.mk "originalStyleUrls"
          (.modeMap [(DEFAULT_STYLE_MODE, ["b.scss"] ++ ["a.scss"])])
        ∈ r.newMembers :=
  flat_styleUrls_precede_styleUrl ⟨true⟩ ⟨[]⟩ []
    ⟨none, some [⟨5, "Component"⟩], some "MyComponent"⟩ []
    ⟨5, some [⟨true, [⟨true, "tag", 11⟩]⟩],
      some ⟨some "foo-bar", false, false, some "a.scss",
        some (.flat ["b.scss"]), none, none, none⟩⟩
    ⟨some "foo-bar", false, false, some "a.scss",
      some (.flat ["b.scss"]), none, none, none⟩
    ["b.scss"] "a.scss" [] rfl rfl rfl rfl rfl

/-! ### Claim C2 -/

/-- Claim C2: for every configuration that passes validation, the synthesized
members are appended after the caller-supplied member list in the fixed order
is, encapsulation, originalStyleUrls, styleUrls, assetsDirs, styles, each
appended only if its source data is non-empty, and the `is` member's literal
equals the trimmed tag; on a configuration that fails validation no member is
appended (so `is` is omitted exactly on validation failure). -/
theorem synthesized_member_order_and_is
    (config : Config) (typeChecker : TypeChecker) (diags : List Diagnostic)
    (cmpNode : ClassNode) (newMembers : List ClassMember) (componentDecorator : Decorator)
    (co : ComponentOptions) (d1 : List Diagnostic)
    (hp : componentDecorator.params = some co) :
    (validateComponent config diags typeChecker co
        (removeDecorators cmpNode CLASS_DECORATORS_TO_REMOVE) componentDecorator
        = .ok (d1, true) →
      ∃ t, co.tag = some t ∧
        componentDecoratorToStatic config typeChecker diags cmpNode newMembers
            componentDecorator
          = .ok ⟨d1, removeDecorators cmpNode CLASS_DECORATORS_TO_REMOVE,
              newMembers
              ++ [⟨"is", .str (jsTrim t)⟩]
              ++ (if co.shadow then [⟨"encapsulation", .str "shadow"⟩]
                  else if co.«scoped» then [⟨"encapsulation", .str "scoped"⟩] else [])
              ++ (if (computeStyleUrls co).length > 0 then
                    [⟨"originalStyleUrls", .modeMap (computeStyleUrls co)⟩,
                     ⟨"styleUrls", .modeMap (normalizeExtension config (computeStyleUrls co))⟩]
                  else [])
              ++ (if ((co.assetsDirs.getD [])
                    ++ (if strTruthy co.assetsDir then co.assetsDir.toList else [])).length > 0 then
                    [⟨"assetsDirs", .strList ((co.assetsDirs.getD [])
                      ++ (if strTruthy co.assetsDir then co.assetsDir.toList else []))⟩]
                  else [])
              ++ (match co.styles with
                  | some sty => if (jsTrim sty).length > 0 then [⟨"styles", .str (jsTrim sty)⟩] else []
                  | none => [])⟩)
    ∧ (validateComponent config diags typeChecker co
        (removeDecorators cmpNode CLASS_DECORATORS_TO_REMOVE) componentDecorator
        = .ok (d1, false) →
      componentDecoratorToStatic config typeChecker diags cmpNode newMembers
          componentDecorator
        = .ok ⟨d1, removeDecorators cmpNode CLASS_DECORATORS_TO_REMOVE, newMembers⟩) := by
  constructor
  · intro hval
    obtain ⟨t, ht⟩ := validate_ok_true_tag config diags typeChecker co
      (removeDecorators cmpNode CLASS_DECORATORS_TO_REMOVE) componentDecorator d1 hval
    refine ⟨t, ht, ?_⟩
    rw [pass_ok_of_valid config typeChecker diags cmpNode newMembers componentDecorator
      co d1 t hp hval ht, synthMembers_eq]
  · intro hval
    exact pass_ok_of_invalid config typeChecker diags cmpNode newMembers componentDecorator
      co d1 hp hval

/-- Witness for C2 at a concrete configuration exercising every member kind:
shadow encapsulation, style maps, assets and inline styles. -/
theorem synthesized_member_order_and_is_witness :
    ∃ t, (ComponentOptions.mk (some "foo-bar") true false (some "a.scss") none
        (some " x ") (some "more") (some ["assets"])).tag = some t ∧
      componentDecoratorToStatic ⟨true⟩ ⟨[]⟩ []
          ⟨none, some [⟨5, "Component"⟩], some "MyComponent"⟩ []
          ⟨5, some [⟨true, [⟨true, "tag", 11⟩]⟩],
            some ⟨some "foo-bar", true, false, some "a.scss", none,
              some " x ", some "more", some ["assets"]⟩⟩
        = .ok ⟨[], removeDecorators ⟨none, some [⟨5, "Component"⟩], some "MyComponent"⟩
              CLASS_DECORATORS_TO_REMOVE,
            []
            ++ [⟨"is", .str (jsTrim t)⟩]
            ++ (if (ComponentOptions.mk (some "foo-bar") true false (some "a.scss") none
                  (some " x ") (some "more") (some ["assets"])).shadow then
                  [⟨"encapsulation", .str "shadow"⟩]
                else if (ComponentOptions.mk (some "foo-bar") true false (some "a.scss") none
                  (some " x ") (some "more") (some ["assets"])).«scoped» then
                  [⟨"encapsulation", .str "scoped"⟩] else [])
            ++ (if (computeStyleUrls ⟨some "foo-bar", true, false, some "a.scss", none,
                  some " x ", some "more", some ["assets"]⟩).length > 0 then
                  [⟨"originalStyleUrls", .modeMap (computeStyleUrls ⟨some "foo-bar", true, false,
                      some "a.scss", none, some " x ", some "more", some ["assets"]⟩)⟩,
                   ⟨"styleUrls", .modeMap (normalizeExtension ⟨true⟩
                      (computeStyleUrls ⟨some "foo-bar", true, false, some "a.scss", none,
                        some " x ", some "more", some ["assets"]⟩))⟩]
                else [])
            ++ (if (((ComponentOptions.mk (some "foo-bar") true false (some "a.scss") none
                  (some " x ") (some "more") (some ["assets"])).assetsDirs.getD [])
                  ++ (if strTruthy (some "more") then (some "more").toList else [])).length > 0 then
                  [⟨"assetsDirs", .strList (((ComponentOptions.mk (some "foo-bar") true false
                      (some "a.scss") none (some " x ") (some "more")
                      (some ["assets"])).assetsDirs.getD [])
                    ++ (if strTruthy (some "more") then (some "more").toList else []))⟩]
                else [])
            ++ (match (ComponentOptions.mk (some "foo-bar") true false (some "a.scss") none
                  (some " x ") (some "more") (some ["assets"])).styles with
                | some sty => if (jsTrim sty).length > 0 then [⟨"styles", .str (jsTrim sty)⟩] else []
                | none => [])⟩ :=
  (synthesized_member_order_and_is ⟨true⟩ ⟨[]⟩ []
    ⟨none, some [⟨5, "Component"⟩], some "MyComponent"⟩ []
    ⟨5, some [⟨true, [⟨true, "tag", 11⟩]⟩],
      some ⟨some "foo-bar", true, false, some "a.scss", none,
        some " x ", some "more", some ["assets"]⟩⟩
    ⟨some "foo-bar", true, false, some "a.scss", none,
      some " x ", some "more", some ["assets"]⟩
    [] rfl).1 rfl

/-! ### Claim C3 -/

/-- Claim C3: when `styleUrls` is a per-mode map, each mode's value is
normalized to a list independently and `styleUrl` merges only into the
reserved default-mode key, never into an explicit mode: the lookup of every
non-default mode equals the independent normalization of the map's own value
for that mode; on the concrete input of the claim the result is exactly
`ios ↦ ["b.scss"], md ↦ ["c.scss","d.scss"], default ↦ ["a.scss"]`. -/
theorem per_mode_map_styleUrl_only_default :
    (∀ (co : ComponentOptions) (m : List (String × StyleVal)) (k : String),
      co.styleUrls = some (.perMode m) → k ≠ DEFAULT_STYLE_MODE →
      mapLookup (computeStyleUrls co) k
        = (mapLookupSV m k).map (fun v => normalizeStyle (some v)))
  ∧ computeStyleUrls ⟨some "foo-bar", false, false, some "a.scss",
      some (.perMode [("ios", .str "b.scss"), ("md", .strs ["c.scss", "d.scss"])]),
      none, none, none⟩
      = [("ios", ["b.scss"]), ("md", ["c.scss", "d.scss"]),
         (DEFAULT_STYLE_MODE, ["a.scss"])] := by
  constructor
  · intro co m k hurls hk
    simp only [computeStyleUrls, hurls]
    split <;> split <;>
      first
        | rw [mapLookup_mapInsert_ne _ _ _ _ hk, mapLookup_normalizeStyleUrls]
        | rw [mapLookup_normalizeStyleUrls]
  · rfl

/-- Witness for C3: the `ios` mode of the claim's concrete input is exactly
the normalization of the map's own `ios` value. -/
theorem per_mode_map_styleUrl_only_default_witness :
    mapLookup (computeStyleUrls ⟨some "foo-bar", false, false, some "a.scss",
        some (.perMode [("ios", .str "b.scss"), ("md", .strs ["c.scss", "d.scss"])]),
        none, none, none⟩) "ios"
      = (mapLookupSV [("ios", StyleVal.str "b.scss"),
          ("md", .strs ["c.scss", "d.scss"])] "ios").map
          (fun v => normalizeStyle (some v)) :=
  per_mode_map_styleUrl_only_default.1
    ⟨some "foo-bar", false, false, some "a.scss",
      some (.perMode [("ios", .str "b.scss"), ("md", .strs ["c.scss", "d.scss"])]),
      none, none, none⟩
    [("ios", .str "b.scss"), ("md", .strs ["c.scss", "d.scss"])]
    "ios" rfl (by decide)

/-! ### Claim C8 -/

/-- Claim C8: with `styleUrl: "a.scss"` and no `styleUrls`, the pass emits
`originalStyleUrls` with default-mode list `["a.scss"]` and `styleUrls` with
default-mode list `["a.css"]`; in general the compiled map rewrites each
path with `useCss` independently, in every mode, preserving the rest of the
map. -/
theorem compiled_map_rewrites_extension_to_css :
    (componentDecoratorToStatic ⟨true⟩ ⟨[]⟩ []
        ⟨none, some [⟨5, "Component"⟩], some "MyComponent"⟩ []
        ⟨5, some [⟨true, [⟨true, "tag", 11⟩]⟩],
          some ⟨some "foo-bar", false, false, some "a.scss", none, none, none, none⟩⟩
      = .ok ⟨[], ⟨none, some [], some "MyComponent"⟩,
          [⟨"is", .str "foo-bar"⟩,
           ⟨"originalStyleUrls", .modeMap [(DEFAULT_STYLE_MODE, ["a.scss"])]⟩,
           ⟨"styleUrls", .modeMap [(DEFAULT_STYLE_MODE, ["a.css"])]⟩]⟩)
  ∧ (∀ (config : Config) (m : ModeMap) (k : String),
      mapLookup (normalizeExtension config m) k
        = (mapLookup m k).map (fun l => l.map (useCss config))) :=
  ⟨rfl, mapLookup_normalizeExtension⟩

/-- Normalizing a per-mode map does not change which keys are present. -/
theorem any_key_normalizeStyleUrls (m : List (String × StyleVal)) (k : String) :
    (normalizeStyleUrls m).any (fun p => p.1 == k) = m.any (fun p => p.1 == k) := by
  induction m with
  | nil => rfl
  | cons p rest ih =>
    simp only [normalizeStyleUrls, List.map_cons, List.any_cons] at ih ⊢
    rw [ih]

/-! ### Claim C10 -/

/-- Claim C10: when the per-mode `styleUrls` map itself contains the reserved
default-mode key, the final default-mode list is the map's default-mode
entries followed by the `styleUrl` entry, this combined list replaces the
map-derived default-mode entry (other modes and the key order of the map are
untouched). -/
theorem perMode_default_entries_precede_styleUrl
    (co : ComponentOptions) (m : List (String × StyleVal)) (s : String)
    (hurls : co.styleUrls = some (.perMode m))
    (hurl : co.styleUrl = some s) (hs : s.isEmpty = false)
    (hdef : m.any (fun p => p.1 == DEFAULT_STYLE_MODE) = true) :
    mapLookup (computeStyleUrls co) DEFAULT_STYLE_MODE
      = some (normalizeStyle (mapLookupSV m DEFAULT_STYLE_MODE) ++ [s])
    ∧ (∀ k, k ≠ DEFAULT_STYLE_MODE →
        mapLookup (computeStyleUrls co) k = mapLookup (normalizeStyleUrls m) k)
    ∧ (computeStyleUrls co).map Prod.fst = m.map Prod.fst := by
  have hexp : computeStyleUrls co
      = mapInsert (normalizeStyleUrls m) DEFAULT_STYLE_MODE
          (normalizeStyle (mapLookupSV m DEFAULT_STYLE_MODE) ++ [s]) := by
    simp [computeStyleUrls, hurls, hurl, strTruthy, hs, normalizeStyle]
  refine ⟨?_, ?_, ?_⟩
  · rw [hexp, mapLookup_mapInsert_self]
  · intro k hk
    rw [hexp, mapLookup_mapInsert_ne _ _ _ _ hk]
  · have hany : (normalizeStyleUrls m).any (fun p => p.1 == DEFAULT_STYLE_MODE) = true := by
      rw [any_key_normalizeStyleUrls]
      exact hdef
    rw [hexp, keys_mapInsert_of_mem _ _ _ hany, keys_normalizeStyleUrls]

/-- Witness for C10 at a concrete per-mode map carrying the default key. -/
theorem perMode_default_entries_precede_styleUrl_witness :
    mapLookup (computeStyleUrls ⟨some "foo-bar", false, false, some "a.css",
        some (.perMode [(DEFAULT_STYLE_MODE, .str "x.css"), ("ios", .str "b.css")]),
        none, none, none⟩) DEFAULT_STYLE_MODE
      = some (normalizeStyle (mapLookupSV [(DEFAULT_STYLE_MODE, StyleVal.str "x.css"),
          ("ios", .str "b.css")] DEFAULT_STYLE_MODE) ++ ["a.css"]) :=
  (perMode_default_entries_precede_styleUrl
    ⟨some "foo-bar", false, false, some "a.css",
      some (.perMode [(DEFAULT_STYLE_MODE, .str "x.css"), ("ios", .str "b.css")]),
      none, none, none⟩
    [(DEFAULT_STYLE_MODE, .str "x.css"), ("ios", .str "b.css")]
    "a.css" rfl rfl rfl (by decide)).1

end ComponentDecorator
